import Mathlib

/-!
Verification development for the PhilFirst internal document processor
(SOA aging / grouping / report-layout engine).

Shallow embedding conventions:
* money amounts are modelled as integers; a raw money cell is a `String`,
  numeric coercion yields `Option Int` where `none` stands for pandas `NaN`
  (coercion failure / missing value);
* dates and elapsed-day counts are modelled as integers (days); `none`
  stands for `NaT` / an unparsable date.  Comparisons against `NaN`/`NaT`
  are `false`, exactly as in pandas;
* a dataframe column of named cells is modelled by `DF`; column access on a
  missing column is a `KeyError`, as in pandas.
-/

/-- Whitespace strip on the character list of a string (Python
`str.strip()` / pandas `.str.strip()`). -/
def strTrim (s : String) : String :=
  String.mk (((s.data.dropWhile Char.isWhitespace).reverse.dropWhile
    Char.isWhitespace).reverse)

/-- Removal of every occurrence of one character (Python
`str.replace(c, "")` for a one-character pattern). -/
def removeChar (c : Char) (s : String) : String :=
  String.mk (s.data.filter (fun x => decide (x ≠ c)))

/-- Replacement of one character by another (Python `str.replace(a, b)`
for one-character pattern and replacement). -/
def replaceChar (a b : Char) (s : String) : String :=
  String.mk (s.data.map (fun x => if x = a then b else x))

/-- Upper-casing (Python `str.upper()`, ASCII granularity). -/
def strUpper (s : String) : String :=
  String.mk (s.data.map Char.toUpper)

/-- Digit-string parse: `some n` when the list is a non-empty run of
decimal digits. -/
def digitsToNat : List Char → Option Nat
  | [] => none
  | l =>
    l.foldl
      (fun acc c =>
        match acc with
        | none => none
        | some n => if c.isDigit then some (n * 10 + (c.toNat - 48)) else none)
      (some 0)

/-- Integer parse of a text cell: optional leading minus, then digits
(the integer-granularity model of Python numeric coercion). -/
def strToInt (s : String) : Option Int :=
  match s.data with
  | '-' :: rest => (digitsToNat rest).map (fun n => -(n : Int))
  | l => (digitsToNat l).map (fun n => (n : Int))

/-- Pandas `pd.to_numeric(s, errors="coerce")` on a text cell: a
whitespace-tolerant numeric parse whose failure is `NaN` (`none`). -/
def to_numeric (s : String) : Option Int :=
  strToInt (strTrim s)

/-- Money cleaning of `soa_direct/soa_direct_processor.py` lines 145-152:
strip surrounding whitespace, drop thousands separators, coerce, and
`fillna(0)` — a coercion failure becomes the number zero. -/
def parse_money_direct (s : String) : Int :=
  (to_numeric (removeChar ',' (strTrim s))).getD 0

/-- Balance-Due cleaning of `soa_reinsurer_premium.py` lines 605-609 and
`soa_reinsurer_processor.py` lines 250-254: drop thousands separators and
coerce with `errors="coerce"`; there is no `fillna`, so a failure stays
`NaN` (`none`). -/
def parse_balance_premium (s : String) : Option Int :=
  to_numeric (removeChar ',' s)

/-- Amount cleaning of `soa_reinsurer_cashcall.py` lines 297-312: strip,
drop commas, turn parentheses and trailing minus into a leading sign. -/
def clean_amount_cashcall (s : String) : String :=
  let t := removeChar ',' (strTrim s)
  let t := removeChar ')' (replaceChar '(' '-' t)
  match t.data.getLast? with
  | some '-' => String.mk ('-' :: t.data.dropLast)
  | _ => t

/-- Numeric coercion of `Total Amount Due` in `soa_reinsurer_cashcall.py`
line 312: `pd.to_numeric(..., errors="coerce")`, no `fillna`. -/
def parse_amount_cashcall (s : String) : Option Int :=
  to_numeric (clean_amount_cashcall s)

/-- Comparison `days < bound` where `days` may be `NaN`: pandas/Python
comparisons against `NaN` are `false`. -/
def nanLt : Option Int → Int → Bool
  | none, _ => false
  | some d, b => d < b

/-- Comparison `days <= bound` where `days` may be `NaN`. -/
def nanLe : Option Int → Int → Bool
  | none, _ => false
  | some d, b => d ≤ b

/-- Ledger aging classifier, `soa_direct_processor.py` lines 17-26.  The
argument is the elapsed-day count `DaysDiff`, which is `NaN` (`none`) when
`Incept Date` was unparsable; every comparison with `NaN` is `false`, so a
`none` argument falls through every branch. -/
def aging_category (days : Option Int) : String :=
  if nanLt days 90 then "Within 90days-Credit Term"
  else if nanLe days 120 then "Over 90 days"
  else if nanLe days 180 then "Over 120 days"
  else if nanLe days 360 then "Over 180 days"
  else "Over 360 days"

/-- Ledger bucket list, `soa_direct_processor.py` lines 29-35. -/
def ALL_AGING_CATEGORIES : List String :=
  ["Within 90days-Credit Term", "Over 90 days", "Over 120 days",
   "Over 180 days", "Over 360 days"]

/-- Cash-call aging classifier, `soa_reinsurer_cashcall.py` lines 38-65.
`fla_date` is the parsed FLA date (`none` for `NaT` or a string the
`except` clause catches); `today` is the current day. -/
def calculate_aging_cashcall (fla_date : Option Int) (today : Int) : String :=
  match fla_date with
  | none => "CURRENT"
  | some d =>
    let days_diff := today - d
    if days_diff ≤ 30 then "CURRENT"
    else if days_diff ≤ 60 then "Over 30 days"
    else if days_diff ≤ 90 then "Over 60 days"
    else if days_diff ≤ 120 then "Over 90 days"
    else if days_diff ≤ 180 then "Over 120 days"
    else if days_diff ≤ 360 then "Over 180 days"
    else "Over 360 days"

/-- Cash-call bucket list, `soa_reinsurer_cashcall.py` lines 476-484. -/
def CASHCALL_AGING_LABELS : List String :=
  ["CURRENT", "Over 30 days", "Over 60 days", "Over 90 days",
   "Over 120 days", "Over 180 days", "Over 360 days"]

/-- One normalized ledger record (`df_all` row) restricted to the fields
the claims need; `balanceDue` is the primary money column after
normalization. -/
structure DRow where
  branch : String
  intermediary : String
  aging : String
  balanceDue : Int
deriving DecidableEq, Repr

/-- Sum of the primary money column `Balance Due` over a list of records. -/
def sumBalance (l : List DRow) : Int :=
  (l.map DRow.balanceDue).sum

/-- Multi-file concatenation of `extract_soa_direct`
(`soa_direct_processor.py` lines 110-129): each uploaded file's rows are
appended and `pd.concat(..., ignore_index=True)` flattens them, with no
renaming and no deduplication. -/
def combined_rows {α : Type} (files : List (List α)) : List α :=
  files.foldl (fun acc f => acc ++ f) []

/-- Input selection of `process_premium` (`soa_reinsurer_premium.py` line
584, `soa_reinsurer_processor.py` line 242): `pd.read_csv(files[0])` —
only the first uploaded file is read. -/
def premium_first_file {α : Type} (files : List (List α)) : List α :=
  files.headD []

/-- Ledger alias matching (`soa_direct_processor.py` lines 74-90 with the
use site at line 302): an alias is stored `str(x).strip()` and a record
name is compared after `.str.strip()` — exact match, case preserved. -/
def directNameMatches (aliasStr name : String) : Bool :=
  strTrim aliasStr == strTrim name

/-- Record selection for one merge group in pass 1 of
`extract_soa_direct` (line 302): rows whose stripped `Intermediary` is in
the group's (already stripped) alias list. -/
def directMergedRows (aliases : List String) (rows : List DRow) : List DRow :=
  rows.filter (fun row => aliases.contains (strTrim row.intermediary))

/-- Emission decision of pass 1 of `extract_soa_direct` (lines 302-304 and
385-391): the only skip is `if merged_rows.empty: continue`; every
non-empty merge group produces an output document, with no check on the
group's money total. -/
def directPass1Emits (aliases : List String) (rows : List DRow) : Bool :=
  !(directMergedRows aliases rows).isEmpty

/-- Row kinds of the ledger semantic grid built by `add_block`
(`soa_direct_processor.py` lines 323-378); the source tracks them through
`subtotal_row_indexes` and `aging_summary_row_indexes`. -/
inductive SRowKind where
  | data
  | subtotal
  | blank
  | agingDetail
  | agingTotal
  | spacing
deriving DecidableEq, Repr

/-- One emitted sheet row: its kind, its first-column label and its
second-column value (`none` renders as the dash placeholder). -/
structure SRow where
  kind : SRowKind
  label : String
  value : Option Int
deriving DecidableEq, Repr

/-- Aging lookup of `add_block` (lines 347-348):
`block_df.groupby("Aging")["Balance Due"].sum()` turned into a dict — a
category is present exactly when some row carries it, with the group sum
as value. -/
def agingDict (block : List DRow) (cat : String) : Option Int :=
  if block.any (fun r => r.aging == cat) then
    some (sumBalance (block.filter (fun r => r.aging == cat)))
  else none

/-- Block builder `add_block` of `extract_soa_direct` (lines 323-378):
data rows, a subtotal row, one blank row, one aging-detail row per entry
of `ALL_AGING_CATEGORIES` (value `none`, displayed "-", when the category
is absent), a terminal `Total` row (whose value `sum(aging_dict.values())`
equals the block's full money total), and two spacing rows unless the
block is the last branch.  An empty block returns without appending. -/
def add_block (block : List DRow) (isLastBranch : Bool) : List SRow :=
  if block.isEmpty then []
  else
    (block.map (fun r => SRow.mk SRowKind.data r.intermediary (some r.balanceDue)))
    ++ [SRow.mk SRowKind.subtotal "" (some (sumBalance block))]
    ++ [SRow.mk SRowKind.blank "" none]
    ++ (ALL_AGING_CATEGORIES.map (fun cat =>
          SRow.mk SRowKind.agingDetail cat (agingDict block cat)))
    ++ [SRow.mk SRowKind.agingTotal "Total" (some (sumBalance block))]
    ++ (if isLastBranch then [] else
          [SRow.mk SRowKind.spacing "" none, SRow.mk SRowKind.spacing "" none])

/-- Per-label accumulation of the cash-call aging summary
(`soa_reinsurer_cashcall.py` lines 505-518): each data row's amount is
added to the bucket named by its `Aging` cell. -/
def buildAgingSummaryCC (rows : List (String × Int)) (label : String) : Int :=
  ((rows.filter (fun p => p.1 == label)).map Prod.snd).sum

/-- Aging-summary section of `apply_cashcall_formatting`
(`soa_reinsurer_cashcall.py` lines 539-546): the loop writes a row only
when `aging_value != 0` — zero-valued buckets are omitted, not rendered as
a placeholder.  The `Total` row follows unconditionally (lines 548-554). -/
def cashcallAgingSection (summary : String → Int) : List (String × Int) :=
  (CASHCALL_AGING_LABELS.filter (fun l => summary l ≠ 0)).map
    (fun l => (l, summary l))

/-- Tabular input: an ordered column list plus rows of named cells
(missing cells read as ""). -/
structure DF where
  cols : List String
  rows : List (List (String × String))
deriving DecidableEq, Repr

/-- Values of one column (used only after the presence check). -/
def DF.getColVals (df : DF) (c : String) : List String :=
  df.rows.map (fun r => (((r.find? (fun p => p.1 == c)).map Prod.snd).getD ""))

/-- Pandas column access `df[c]`: a missing column raises `KeyError`. -/
def DF.getCol (df : DF) (c : String) : Except String (List String) :=
  if df.cols.contains c then Except.ok (df.getColVals c)
  else Except.error ("KeyError: " ++ c)

/-- Pass-2 grouping keys of `extract_soa_direct` (line 394):
`df_all.groupby(["Branch", "Intermediary"])` — pandas raises `KeyError`
when either column is entirely absent. -/
def direct_group_keys (df : DF) : Except String (List (String × String)) := do
  let bs ← df.getCol "Branch"
  let is ← df.getCol "Intermediary"
  pure (bs.zip is)

/-- First-occurrence deduplication, pandas `.unique()`. -/
def dedupFirst (l : List String) : List String :=
  l.foldl (fun acc x => if acc.contains x then acc else acc ++ [x]) []

/-- Output keys of `process_premium` (`soa_reinsurer_processor.py` lines
256-258 and `soa_reinsurer_premium.py` lines 620-621): the whole
per-reinsurer loop sits under `if "Reinsurer" in df_processed.columns:` —
an input without that column yields no outputs and no error. -/
def premium_output_keys (df : DF) : List String :=
  if df.cols.contains "Reinsurer" then dedupFirst (df.getColVals "Reinsurer")
  else []

/-- Observable outcome of one extractor run: the propagated result and
whether the run's private working directory was removed before the
function returned or re-raised. -/
structure ExtractOutcome (α : Type) where
  result : Except String α
  workdirRemoved : Bool

/-- Orchestration skeleton of `extract_soa_reinsurer_cashcall`
(`soa_reinsurer_cashcall.py` lines 946-1024): `tempfile.mkdtemp()` then a
`try` whose `except` clause runs `shutil.rmtree(temp_dir)` before
`raise e`.  On success the archive lives inside the working directory, so
the directory is handed to the caller intact. -/
def extract_soa_reinsurer_cashcall_wrap (α : Type) (body : Except String α) :
    ExtractOutcome α :=
  match body with
  | Except.ok a => { result := Except.ok a, workdirRemoved := false }
  | Except.error e => { result := Except.error e, workdirRemoved := true }

/-- Orchestration skeleton of `extract_soa_direct`
(`soa_direct_processor.py` lines 99-488): `tempfile.mkdtemp()` at line 103
and no `try`/`except` anywhere in the function — an exception propagates
with the working directory left in place. -/
def extract_soa_direct_wrap (α : Type) (body : Except String α) :
    ExtractOutcome α :=
  { result := body, workdirRemoved := false }

/-- One processed cash-call row restricted to the fields the grouping
stage reads; `amount` is the coerced `Total Amount Due` (`none` = `NaN`). -/
structure CCRow where
  reinsurer : String
  amount : Option Int
deriving DecidableEq, Repr

/-- Name normalization of `soa_reinsurer_cashcall.py` lines 198-200 (and
`soa_reinsurer_premium.py` lines 566-568): strip then upper-case. -/
def normalize_reinsurer_name (name : String) : String :=
  strUpper (strTrim name)

/-- Merge-group lookup `find_merge_group` of `soa_reinsurer_cashcall.py`
lines 202-210: the first configured group one of whose members is
normalize-equal to the name; `None` otherwise. -/
def find_merge_group (name : String) (mergeList : List (List String)) :
    Option (List String) :=
  mergeList.find? (fun g =>
    g.any (fun m => normalize_reinsurer_name m == normalize_reinsurer_name name))

/-- Pandas sum of the amount column: `NaN` entries are skipped. -/
def ccSum (l : List CCRow) : Int :=
  (l.map (fun row => row.amount.getD 0)).sum

/-- Row filter `df["Total Amount Due"] != 0` (lines 368 and 390): a `NaN`
amount compares unequal to 0 and is kept. -/
def ccFilterRows (l : List CCRow) : List CCRow :=
  l.filter (fun row => decide (row.amount ≠ some 0))

/-- One entry of `output_dfs` in `process_cashcall`: a merged document
with per-member sections, or a single-reinsurer document. -/
inductive CCDoc where
  | merged (master : String) (sections : List (String × List CCRow))
  | single (name : String) (rows : List CCRow)
deriving DecidableEq, Repr

/-- Data rows carried by one output document. -/
def ccDocRows : CCDoc → List CCRow
  | CCDoc.merged _ sections => (sections.map Prod.snd).flatten
  | CCDoc.single _ rows => rows

/-- Accumulator of the merged-group member loop of `process_cashcall`
(lines 337-360): collected sections, the master name (set at the first
non-empty member), and `total_for_merged`. -/
structure MergedAcc where
  sections : List (String × List CCRow)
  master : Option String
  total : Int
deriving DecidableEq, Repr

/-- Member selection (lines 342-346): rows whose normalized reinsurer
equals the normalized member name. -/
def memberData (rows : List CCRow) (m : String) : List CCRow :=
  rows.filter (fun row =>
    normalize_reinsurer_name row.reinsurer == normalize_reinsurer_name m)

/-- One iteration of the member loop of the merged branch of
`process_cashcall` (lines 341-360): an empty member is skipped; otherwise
its section is collected, the master name is fixed on the first hit via
`rename_map.get(group_member, group_member)`, the member subtotal is
accumulated and the normalized name is marked processed. -/
def ccCollectStep (hasAmountCol : Bool) (renameMap : String → Option String)
    (rows : List CCRow) (acc : MergedAcc × List String) (m : String) :
    MergedAcc × List String :=
  let data := memberData rows m
  if data.isEmpty then acc
  else
    let master := match acc.1.master with
      | some s => some s
      | none => some ((renameMap m).getD m)
    let total := if hasAmountCol then acc.1.total + ccSum data else acc.1.total
    (MergedAcc.mk (acc.1.sections ++ [(m, data)]) master total,
     acc.2 ++ [normalize_reinsurer_name m])

/-- Member loop of the merged branch of `process_cashcall` (lines
337-360), also returning the normalized names added to
`processed_reinsurers`. -/
def process_cashcall_collect (hasAmountCol : Bool)
    (renameMap : String → Option String) (rows : List CCRow)
    (group : List String) : MergedAcc × List String :=
  group.foldl (ccCollectStep hasAmountCol renameMap rows)
    (MergedAcc.mk [] none 0, [])

/-- Section filtering of the merged branch (lines 364-372): with the
amount column present, each section keeps only its nonzero rows and is
dropped when nothing survives; without the column sections pass through. -/
def ccFilterSections (hasAmountCol : Bool)
    (sections : List (String × List CCRow)) : List (String × List CCRow) :=
  if hasAmountCol then
    sections.filterMap (fun s =>
      let fd := ccFilterRows s.2
      if fd.isEmpty then none else some (s.1, fd))
  else sections

/-- Python truthiness of `master_name` in `if merged_sections and
master_name and total_for_merged != 0` (line 363): `None` and the empty
string are falsy. -/
def masterTruthy : Option String → Bool
  | none => false
  | some s => decide (s ≠ "")

/-- Body of the per-reinsurer loop of `process_cashcall` (lines 327-397),
acting on the accumulated `(processed_reinsurers, output_dfs)` state.
Merged branch: collect members, and append one merged document only when
sections exist, the master name is truthy, the group total is nonzero and
some filtered section survives.  Single branch: with the amount column,
append only when the subtotal is nonzero, after dropping the zero rows;
without it, append unfiltered. -/
def process_cashcall_step (mergeList : List (List String))
    (renameMap : String → Option String) (hasAmountCol : Bool)
    (rows : List CCRow) (acc : List String × List CCDoc) (r : String) :
    List String × List CCDoc :=
  if acc.1.contains (normalize_reinsurer_name r) then acc
  else
    match find_merge_group r mergeList with
    | some group =>
      let collected := process_cashcall_collect hasAmountCol renameMap rows group
      let macc := collected.1
      if !macc.sections.isEmpty && masterTruthy macc.master && decide (macc.total ≠ 0) then
        let filtered := ccFilterSections hasAmountCol macc.sections
        if filtered.isEmpty then (acc.1 ++ collected.2, acc.2)
        else (acc.1 ++ collected.2,
              acc.2 ++ [CCDoc.merged (macc.master.getD "") filtered])
      else (acc.1 ++ collected.2, acc.2)
    | none =>
      let reinsurerRows := rows.filter (fun row => row.reinsurer == r)
      let processed := acc.1 ++ [normalize_reinsurer_name r]
      if hasAmountCol then
        if ccSum reinsurerRows ≠ 0 then
          let filtered := ccFilterRows reinsurerRows
          if filtered.isEmpty then (processed, acc.2)
          else (processed, acc.2 ++ [CCDoc.single r filtered])
        else (processed, acc.2)
      else (processed, acc.2 ++ [CCDoc.single r reinsurerRows])

/-- First-occurrence order of reinsurer names,
`df_processed["Reinsurer"].dropna().unique()` (line 325). -/
def uniqueReinsurers (rows : List CCRow) : List String :=
  rows.foldl
    (fun acc row => if acc.contains row.reinsurer then acc else acc ++ [row.reinsurer])
    []

/-- Grouping stage of `process_cashcall` (`soa_reinsurer_cashcall.py`
lines 319-400): iterate the distinct reinsurers, skipping those already
claimed by an earlier merge group. -/
def process_cashcall (mergeList : List (List String))
    (renameMap : String → Option String) (hasAmountCol : Bool)
    (rows : List CCRow) : List CCDoc :=
  ((uniqueReinsurers rows).foldl
    (process_cashcall_step mergeList renameMap hasAmountCol rows) ([], [])).2

/-- Total money of a collected section list: the value `total_for_merged`
accumulates across the member loop (lines 354-358). -/
def sectionsTotal (sections : List (String × List CCRow)) : Int :=
  (sections.map (fun p => ccSum p.2)).sum

/-- Comparison `Eff <= Incept` between two nullable dates: any comparison
involving `NaT` is `false` in pandas. -/
def nanLeOpt : Option Int → Option Int → Bool
  | some a, some b => a ≤ b
  | _, _ => false

/-- Canonical aging-date resolution of `extract_soa_direct`
(`soa_direct_processor.py` lines 116-120):
`Incept.where(Eff <= Incept, Eff)` — keep the inception date where the
comparison holds (comparisons with `NaT` are `false`), otherwise take the
effective date. -/
def resolveInceptDate (incept eff : Option Int) : Option Int :=
  if nanLeOpt eff incept then incept else eff

/-! Helper lemmas shared by the claim theorems. -/

/-- Fold invariant: a property preserved by every step of a left fold
holds of the result. -/
theorem foldl_invariant {α β : Type} (f : β → α → β) (P : β → Prop) (l : List α)
    (init : β) (hstep : ∀ acc x, x ∈ l → P acc → P (f acc x)) (hinit : P init) :
    P (l.foldl f init) := by
  induction l generalizing init with
  | nil => exact hinit
  | cons x xs ih =>
    exact ih _ (fun acc y hy hP => hstep acc y (List.mem_cons_of_mem _ hy) hP)
      (hstep init x (List.mem_cons_self _ _) hinit)

/-- Left-fold concatenation over an accumulator equals flattening. -/
theorem foldl_append_eq_flatten {α : Type} (files : List (List α)) (init : List α) :
    files.foldl (fun acc f => acc ++ f) init = init ++ files.flatten := by
  induction files generalizing init with
  | nil => simp
  | cons f fs ih => simp [ih, List.append_assoc]

/-- Every row surviving the cash-call zero filter has a nonzero amount. -/
theorem ccFilterRows_amount_ne {l : List CCRow} {row : CCRow}
    (h : row ∈ ccFilterRows l) : row.amount ≠ some 0 := by
  have h2 := (List.mem_filter.mp h).2
  simpa using h2

/-- A list whose zero filter is empty sums to zero, contrapositively: a
nonzero sum leaves at least one row after filtering. -/
theorem ccFilterRows_ne_nil {l : List CCRow} (h : ccSum l ≠ 0) :
    ccFilterRows l ≠ [] := by
  intro hnil
  apply h
  have hall : ∀ row ∈ l, row.amount = some 0 := by
    intro row hrow
    have h3 := List.filter_eq_nil_iff.mp hnil row hrow
    simpa using h3
  unfold ccSum
  apply List.sum_eq_zero
  intro x hx
  rcases List.mem_map.mp hx with ⟨row, hrow, rfl⟩
  rw [hall row hrow]
  rfl

/-- A nonzero section total exhibits a section with nonzero sum. -/
theorem sectionsTotal_ne {sections : List (String × List CCRow)}
    (h : sectionsTotal sections ≠ 0) : ∃ p ∈ sections, ccSum p.2 ≠ 0 := by
  by_contra hno
  push_neg at hno
  apply h
  unfold sectionsTotal
  apply List.sum_eq_zero
  intro x hx
  rcases List.mem_map.mp hx with ⟨p, hp, rfl⟩
  exact hno p hp

/-- With the amount column present, a section list of nonzero total
survives the per-section filtering. -/
theorem ccFilterSections_ne_nil {sections : List (String × List CCRow)}
    (h : sectionsTotal sections ≠ 0) : ccFilterSections true sections ≠ [] := by
  rcases sectionsTotal_ne h with ⟨p, hp, hps⟩
  have hf : ccFilterRows p.2 ≠ [] := ccFilterRows_ne_nil hps
  intro hnil
  have hmem : (p.1, ccFilterRows p.2) ∈ ccFilterSections true sections := by
    unfold ccFilterSections
    simp only [if_true]
    apply List.mem_filterMap.mpr
    refine ⟨p, hp, ?_⟩
    simp [List.isEmpty_eq_false.mpr hf]
  rw [hnil] at hmem
  exact absurd hmem (List.not_mem_nil _)

/-- Every section delivered by the filtering stage contains only nonzero
rows. -/
theorem ccFilterSections_rows {sections : List (String × List CCRow)}
    {d : String × List CCRow} (hd : d ∈ ccFilterSections true sections) :
    ∀ r ∈ d.2, r.amount ≠ some 0 := by
  unfold ccFilterSections at hd
  simp only [if_true] at hd
  rcases List.mem_filterMap.mp hd with ⟨s, _, hf⟩
  by_cases he : (ccFilterRows s.2).isEmpty
  · simp [he] at hf
  · simp only [he, Bool.false_eq_true, if_false, Option.some.injEq] at hf
    intro r hr
    rw [← hf] at hr
    exact ccFilterRows_amount_ne hr

/-- Invariants of the member-collection loop of the merged branch: the
running total equals the total over the collected sections, the master
name is set exactly when a section exists, and (for groups whose resolved
names are nonempty strings) the master name is truthy once set. -/
theorem process_cashcall_collect_inv (renameMap : String → Option String)
    (rows : List CCRow) (group : List String)
    (hname : ∀ m ∈ group, (renameMap m).getD m ≠ "") :
    (process_cashcall_collect true renameMap rows group).1.total
      = sectionsTotal (process_cashcall_collect true renameMap rows group).1.sections
    ∧ ((process_cashcall_collect true renameMap rows group).1.sections = []
        → (process_cashcall_collect true renameMap rows group).1.master = none)
    ∧ ((process_cashcall_collect true renameMap rows group).1.sections ≠ []
        → masterTruthy (process_cashcall_collect true renameMap rows group).1.master = true) := by
  unfold process_cashcall_collect
  refine foldl_invariant (ccCollectStep true renameMap rows)
    (fun acc => acc.1.total = sectionsTotal acc.1.sections
      ∧ (acc.1.sections = [] → acc.1.master = none)
      ∧ (acc.1.sections ≠ [] → masterTruthy acc.1.master = true))
    group (MergedAcc.mk [] none 0, []) ?_ ?_
  · intro acc m hm hP
    unfold ccCollectStep
    by_cases hd : (memberData rows m).isEmpty
    · simpa [hd] using hP
    · rcases hP with ⟨ht, hnone, htruthy⟩
      simp only [hd, Bool.false_eq_true, if_false]
      refine ⟨?_, ?_, ?_⟩
      · simp [sectionsTotal, List.sum_append, ht, sectionsTotal]
      · intro hcontra
        simp at hcontra
      · intro _
        cases hmast : acc.1.master with
        | some s0 =>
          have hne : acc.1.sections ≠ [] := by
            intro hs
            have := hnone hs
            rw [hmast] at this
            exact Option.noConfusion this
          have := htruthy hne
          rw [hmast] at this
          simpa using this
        | none =>
          simp only [masterTruthy]
          simpa using hname m hm
  · exact ⟨rfl, fun _ => rfl, fun h => absurd rfl h⟩

/-! Claim theorems. -/

/-- C2 counterexample: a ledger record with a null aging reference
(elapsed days `NaN`) classifies to "Over 360 days" — the ruleset's LAST
bucket — not to the first bucket "Within 90days-Credit Term" that the
claim asserts. -/
theorem C2_counterexample :
    aging_category none = "Over 360 days"
    ∧ ALL_AGING_CATEGORIES.headD "" = "Within 90days-Credit Term"
    ∧ aging_category none ≠ ALL_AGING_CATEGORIES.headD "" := by
  refine ⟨rfl, rfl, ?_⟩
  decide

/-- C2 (amended): a null aging-reference date never raises in either
classifier, but the bucket differs by pipeline: the cash-call classifier
returns "CURRENT", the ruleset's first/most-lenient bucket, while the
ledger classifier's `NaN` elapsed-days falls through every comparison and
lands in "Over 360 days", the ruleset's last/harshest bucket. -/
theorem C2_amended (today : Int) :
    calculate_aging_cashcall none today = "CURRENT"
    ∧ CASHCALL_AGING_LABELS.headD "" = "CURRENT"
    ∧ aging_category none = "Over 360 days"
    ∧ ALL_AGING_CATEGORIES.getLast? = some "Over 360 days" :=
  ⟨rfl, rfl, rfl, rfl⟩

/-- C3 counterexample: given two input files, the premium pipelines'
record set is not the concatenation of both files — the second file's
rows are dropped. -/
theorem C3_counterexample :
    premium_first_file [[(1 : Nat)], [2]] ≠ combined_rows [[(1 : Nat)], [2]] := by
  decide

/-- C3 (amended): the ledger pipeline concatenates the rows of all
supplied files into one unified record set, preserving duplicates, with
no per-file renaming and no deduplication; the reinsurer premium
pipelines instead read only the first supplied file and ignore the rest. -/
theorem C3_amended (α : Type) (files : List (List α)) (f : List α)
    (rest : List (List α)) :
    combined_rows files = files.flatten
    ∧ (combined_rows files).length = (files.map List.length).sum
    ∧ (files = f :: rest → premium_first_file files = f) := by
  refine ⟨?_, ?_, ?_⟩
  · simpa using foldl_append_eq_flatten files []
  · rw [show combined_rows files = files.flatten from by
      simpa using foldl_append_eq_flatten files []]
    exact List.length_flatten files
  · intro h
    subst h
    rfl

/-- C3 witness: two files each holding the same single row concatenate to
a two-element record set (the duplicate preserved), and the premium
pipeline's record set is exactly the first file. -/
theorem C3_witness :
    combined_rows [[(1 : Nat)], [1]] = [[(1 : Nat)], [1]].flatten
    ∧ premium_first_file [[(1 : Nat)], [1]] = [1] :=
  ⟨(C3_amended Nat [[1], [1]] [1] [[1]]).1,
   (C3_amended Nat [[1], [1]] [1] [[1]]).2.2 rfl⟩

/-- C6 counterexample: when the ledger extractor's pipeline body raises,
the exception propagates with the run's working directory left in place —
`extract_soa_direct` has no cleanup handler. -/
theorem C6_counterexample :
    (extract_soa_direct_wrap Unit (Except.error "read failure")).workdirRemoved = false
    ∧ (extract_soa_direct_wrap Unit (Except.error "read failure")).result
        = Except.error "read failure" :=
  ⟨rfl, rfl⟩

/-- C6 (amended): the cash-call extractor removes its private working
directory before any mid-pipeline exception propagates and never returns
a value on the error path, and a successful run's result is passed
through unchanged; the ledger extractor `extract_soa_direct` has no such
handler, so an exception there propagates with the working directory
left behind. -/
theorem C6_amended (α : Type) (e : String) (a : α) :
    (extract_soa_reinsurer_cashcall_wrap α (Except.error e)).workdirRemoved = true
    ∧ (extract_soa_reinsurer_cashcall_wrap α (Except.error e)).result = Except.error e
    ∧ (extract_soa_reinsurer_cashcall_wrap α (Except.ok a)).result = Except.ok a
    ∧ (extract_soa_direct_wrap α (Except.error e)).workdirRemoved = false :=
  ⟨rfl, rfl, rfl, rfl⟩

/-- C7 counterexample: in the reinsurer pipelines a money value that
fails numeric coercion becomes a missing value (`NaN`), not the number
zero as the claim asserts. -/
theorem C7_counterexample :
    parse_balance_premium "abc" = none
    ∧ parse_amount_cashcall "abc" = none
    ∧ (none : Option Int) ≠ some 0 := by
  refine ⟨rfl, rfl, ?_⟩
  decide

/-- C7 (amended): every pipeline strips thousands separators before
numeric coercion and never raises on a malformed money value, but the
fallbacks differ: the ledger pipeline turns every coercion failure into
the number zero (and passes parsed values through), while the reinsurer
pipelines leave a coercion failure as a missing value (`NaN`). -/
theorem C7_amended (s : String) :
    (to_numeric (removeChar ',' (strTrim s)) = none → parse_money_direct s = 0)
    ∧ (∀ n : Int, to_numeric (removeChar ',' (strTrim s)) = some n →
        parse_money_direct s = n)
    ∧ parse_money_direct " 1,234 " = 1234
    ∧ parse_balance_premium "abc" = none
    ∧ parse_amount_cashcall "(1,234)" = some (-1234)
    ∧ (∀ l : List String, (l.map parse_money_direct).length = l.length) := by
  refine ⟨?_, ?_, rfl, rfl, rfl, ?_⟩
  · intro h
    unfold parse_money_direct
    rw [h]
    rfl
  · intro n h
    unfold parse_money_direct
    rw [h]
    rfl
  · intro l
    exact List.length_map l parse_money_direct

/-- C7 witness: the unparsable ledger money cell "abc" coerces to zero. -/
theorem C7_witness : parse_money_direct "abc" = 0 :=
  (C7_amended "abc").1 rfl

/-- C8 counterexample: for the same alias/record-name pair, the cash-call
resolver (`find_merge_group`, trim + case fold) matches while the ledger
resolver (trim only, case-sensitive) does not — the two SOA pipelines do
not apply the same resolution rule. -/
theorem C8_counterexample :
    (find_merge_group "ACME" [["Acme"]]).isSome = true
    ∧ directNameMatches "Acme" "ACME" = false := by
  refine ⟨rfl, ?_⟩
  decide

/-- C8 (amended): the cash-call resolver `find_merge_group` matches a
name to a group exactly when some registered member is equal after
whitespace trimming and case folding — exact match, never substring; the
ledger resolver matches exactly on whitespace-trimmed names and is
case-sensitive, so the two pipelines do not share one rule. -/
theorem C8_amended (name : String) (mergeList : List (List String)) :
    ((find_merge_group name mergeList).isSome = true ↔
      ∃ g ∈ mergeList, ∃ m ∈ g,
        normalize_reinsurer_name m = normalize_reinsurer_name name)
    ∧ (∀ a b : String, directNameMatches a b = true ↔ strTrim a = strTrim b)
    ∧ find_merge_group "Acme" [["Acme Re"]] = none
    ∧ (find_merge_group " acme re" [["Acme Re"]]).isSome = true := by
  refine ⟨?_, ?_, rfl, rfl⟩
  · unfold find_merge_group
    rw [List.find?_isSome]
    constructor
    · rintro ⟨g, hg, hp⟩
      rcases List.any_eq_true.mp hp with ⟨m, hm, hbeq⟩
      exact ⟨g, hg, m, hm, beq_iff_eq.mp hbeq⟩
    · rintro ⟨g, hg, m, hm, heq⟩
      exact ⟨g, hg, List.any_eq_true.mpr ⟨m, hm, beq_iff_eq.mpr heq⟩⟩
  · intro a b
    unfold directNameMatches
    exact beq_iff_eq

/-- C9: the canonical aging date of the ledger pipeline equals the
inception date when the effective date is less than or equal to it,
equals the effective date otherwise, and resolves to the effective date
(without raising) when the inception date is null and the effective date
is valid. -/
theorem C9 (i e : Int) :
    (e ≤ i → resolveInceptDate (some i) (some e) = some i)
    ∧ (i < e → resolveInceptDate (some i) (some e) = some e)
    ∧ resolveInceptDate none (some e) = some e := by
  refine ⟨?_, ?_, rfl⟩
  · intro h
    simp [resolveInceptDate, nanLeOpt, h]
  · intro h
    simp [resolveInceptDate, nanLeOpt, not_le.mpr h]

/-- C9 witness: concrete date resolutions for both orderings and for a
null inception date. -/
theorem C9_witness :
    resolveInceptDate (some 10) (some 4) = some 10
    ∧ resolveInceptDate (some 3) (some 9) = some 9
    ∧ resolveInceptDate none (some 7) = some 7 :=
  ⟨(C9 10 4).1 (by decide), (C9 3 9).2.1 (by decide), (C9 0 7).2.2⟩

/-- C4 counterexample: in a laid-out cash-call block whose "CURRENT"
bucket has a zero subtotal, the aging-summary section omits the "CURRENT"
row entirely instead of rendering a dash/zero placeholder. -/
theorem C4_counterexample :
    "CURRENT" ∈ CASHCALL_AGING_LABELS
    ∧ buildAgingSummaryCC [("Over 30 days", 5)] "CURRENT" = 0
    ∧ ¬ ("CURRENT" ∈
        (cashcallAgingSection (buildAgingSummaryCC [("Over 30 days", 5)])).map
          Prod.fst) := by
  decide

/-- C4 (amended): in the ledger pipeline every laid-out block's
aging-summary section lists every defined bucket exactly once, in ruleset
order, carrying the bucket's subtotal (with `none`, rendered "-", for an
absent bucket) and followed by a terminal "Total" row; the cash-call
layout instead lists exactly the buckets whose subtotal is nonzero,
omitting zero/absent buckets, before its own "Total" row. -/
theorem C4_amended (block : List DRow) (b : Bool) (hne : block ≠ []) :
    ((add_block block b).filter (fun r => decide (r.kind = SRowKind.agingDetail)))
      = ALL_AGING_CATEGORIES.map
          (fun cat => SRow.mk SRowKind.agingDetail cat (agingDict block cat))
    ∧ (((add_block block b).filter
          (fun r => decide (r.kind = SRowKind.agingDetail)
            || decide (r.kind = SRowKind.agingTotal))).map SRow.label)
      = ALL_AGING_CATEGORIES ++ ["Total"]
    ∧ (∀ summary : String → Int, ∀ lab : String,
        lab ∈ (cashcallAgingSection summary).map Prod.fst ↔
          lab ∈ CASHCALL_AGING_LABELS ∧ summary lab ≠ 0) := by
  have hE : block.isEmpty = false := List.isEmpty_eq_false.mpr hne
  refine ⟨?_, ?_, ?_⟩
  · unfold add_block
    rw [hE]
    simp only [Bool.false_eq_true, if_false, List.filter_append]
    rw [List.filter_eq_nil_iff.mpr (by
      intro a ha
      rcases List.mem_map.mp ha with ⟨r, _, rfl⟩
      simp)]
    cases b <;> simp [ALL_AGING_CATEGORIES]
  · unfold add_block
    rw [hE]
    simp only [Bool.false_eq_true, if_false, List.filter_append]
    rw [List.filter_eq_nil_iff.mpr (by
      intro a ha
      rcases List.mem_map.mp ha with ⟨r, _, rfl⟩
      simp)]
    cases b <;> simp [ALL_AGING_CATEGORIES]
  · intro summary lab
    constructor
    · intro h
      rcases List.mem_map.mp h with ⟨p, hp, rfl⟩
      rcases List.mem_map.mp hp with ⟨l2, hl2, rfl⟩
      have hmem := (List.mem_filter.mp hl2).1
      have hval := (List.mem_filter.mp hl2).2
      exact ⟨hmem, by simpa using hval⟩
    · rintro ⟨hmem, hval⟩
      apply List.mem_map.mpr
      refine ⟨(lab, summary lab), ?_, rfl⟩
      apply List.mem_map.mpr
      refine ⟨lab, ?_, rfl⟩
      exact List.mem_filter.mpr ⟨hmem, by simpa using hval⟩

/-- C4 witness: a one-row ledger block laid out as the last branch yields
the full five-bucket aging section followed by the "Total" row. -/
theorem C4_witness :
    (((add_block [DRow.mk "HO" "A" "Over 90 days" 7] true).filter
        (fun r => decide (r.kind = SRowKind.agingDetail)
          || decide (r.kind = SRowKind.agingTotal))).map SRow.label)
      = ALL_AGING_CATEGORIES ++ ["Total"] :=
  (C4_amended [DRow.mk "HO" "A" "Over 90 days" 7] true (by decide)).2.1

/-- C5 counterexample: an input without the mandatory entity-name column
does not fail with a `MalformedInputError` (no such error exists in the
code): the reinsurer premium pipeline completes normally with zero
outputs, and the ledger pipeline raises a pandas `KeyError` instead. -/
theorem C5_counterexample :
    premium_output_keys (DF.mk ["Assured"] [[("Assured", "X")]]) = []
    ∧ direct_group_keys (DF.mk ["Branch"] [])
        = Except.error "KeyError: Intermediary" :=
  ⟨rfl, rfl⟩

/-- C5 (amended): when the mandatory entity-name column is entirely
absent, the ledger pipeline's grouping fails with a pandas `KeyError`
(there is no `MalformedInputError` in the code), while the reinsurer
premium pipeline does not fail at all — it yields no outputs; with the
required columns present the ledger grouping succeeds, never raising for
per-row data. -/
theorem C5_amended (df : DF) :
    (df.cols.contains "Branch" = true → df.cols.contains "Intermediary" = false →
      direct_group_keys df = Except.error "KeyError: Intermediary")
    ∧ (df.cols.contains "Branch" = false →
      direct_group_keys df = Except.error "KeyError: Branch")
    ∧ (df.cols.contains "Branch" = true → df.cols.contains "Intermediary" = true →
      direct_group_keys df
        = Except.ok ((df.getColVals "Branch").zip (df.getColVals "Intermediary")))
    ∧ (df.cols.contains "Reinsurer" = false → premium_output_keys df = []) := by
  refine ⟨?_, ?_, ?_, ?_⟩
  · intro hb hi
    simp at hb hi
    simp [direct_group_keys, DF.getCol, hb, hi]
    rfl
  · intro hb
    simp at hb
    simp [direct_group_keys, DF.getCol, hb]
    rfl
  · intro hb hi
    simp at hb hi
    simp [direct_group_keys, DF.getCol, hb, hi]
    rfl
  · intro hr
    simp at hr
    simp [premium_output_keys, hr]

/-- C5 witness: with both mandatory columns present, the ledger grouping
succeeds on a concrete one-row input. -/
theorem C5_witness :
    direct_group_keys
        (DF.mk ["Branch", "Intermediary"]
          [[("Branch", "HO"), ("Intermediary", "A")]])
      = Except.ok [("HO", "A")] := by
  have h := (C5_amended
    (DF.mk ["Branch", "Intermediary"]
      [[("Branch", "HO"), ("Intermediary", "A")]])).2.2.1 rfl rfl
  rw [h]
  rfl

/-- C1 counterexample: in the ledger pipeline a merge group whose rows
sum to exactly zero in the primary money column still produces an output
document — pass 1 only skips groups with no rows, contradicting the
claimed zero-total skip for every SOA pipeline. -/
theorem C1_counterexample :
    directPass1Emits ["Acme"]
        [DRow.mk "HO" "Acme" "Within 90days-Credit Term" 5,
         DRow.mk "HO" "Acme" "Within 90days-Credit Term" (-5)] = true
    ∧ sumBalance (directMergedRows ["Acme"]
        [DRow.mk "HO" "Acme" "Within 90days-Credit Term" 5,
         DRow.mk "HO" "Acme" "Within 90days-Credit Term" (-5)]) = 0 := by
  decide

/-- C1 (amended): in the cash-call pipeline the zero-total skip holds as
claimed — an unprocessed single reinsurer's document count grows exactly
when its amount subtotal is nonzero (negative included), and an
unprocessed merged group's exactly when `total_for_merged` is nonzero
(for groups resolving to nonempty master names); the ledger pipeline has
no zero-total rule — its pass 1 emits for every merge group with at
least one record, even when the group's primary-money total is exactly
zero. -/
theorem C1_amended (mergeList : List (List String))
    (renameMap : String → Option String) (rows : List CCRow)
    (processed : List String) (out : List CCDoc) (r : String)
    (aliases : List String) (drows : List DRow)
    (hproc : processed.contains (normalize_reinsurer_name r) = false) :
    (find_merge_group r mergeList = none →
      (process_cashcall_step mergeList renameMap true rows (processed, out) r).2.length
        = out.length
          + (if ccSum (rows.filter (fun row => row.reinsurer == r)) = 0 then 0 else 1))
    ∧ (∀ group, find_merge_group r mergeList = some group →
        (∀ m ∈ group, (renameMap m).getD m ≠ "") →
        (process_cashcall_step mergeList renameMap true rows (processed, out) r).2.length
          = out.length
            + (if (process_cashcall_collect true renameMap rows group).1.total = 0
               then 0 else 1))
    ∧ (directMergedRows aliases drows ≠ [] →
        sumBalance (directMergedRows aliases drows) = 0 →
        directPass1Emits aliases drows = true) := by
  refine ⟨?_, ?_, ?_⟩
  · intro hf
    simp only [process_cashcall_step, hproc, hf, Bool.false_eq_true, if_false]
    by_cases hz : ccSum (rows.filter (fun row => row.reinsurer == r)) = 0
    · simp [hz]
    · have hfil := ccFilterRows_ne_nil hz
      simp [hz, List.isEmpty_eq_false.mpr hfil]
  · intro group hf hname
    have hinv := process_cashcall_collect_inv renameMap rows group hname
    simp only [process_cashcall_step, hproc, hf, Bool.false_eq_true, if_false]
    by_cases hz : (process_cashcall_collect true renameMap rows group).1.total = 0
    · simp [hz]
    · have hst : sectionsTotal
          (process_cashcall_collect true renameMap rows group).1.sections ≠ 0 := by
        rw [← hinv.1]
        exact hz
      have hsec : (process_cashcall_collect true renameMap rows group).1.sections
          ≠ [] := by
        intro h0
        apply hst
        rw [h0]
        rfl
      have htr := hinv.2.2 hsec
      have hfil := ccFilterSections_ne_nil hst
      simp [hz, List.isEmpty_eq_false.mpr hsec, htr, List.isEmpty_eq_false.mpr hfil]
  · intro h1 _
    simp [directPass1Emits, List.isEmpty_eq_false.mpr h1]

/-- C1 witness: a lone cash-call reinsurer with a single nonzero row
yields exactly one output document. -/
theorem C1_witness :
    (process_cashcall_step [] (fun _ => none) true [CCRow.mk "R" (some 5)]
        ([], []) "R").2.length = 1 := by
  have h := (C1_amended [] (fun _ => none) [CCRow.mk "R" (some 5)] [] [] "R"
    [] [] rfl).1 rfl
  rw [h]
  decide

/-- C10: in the cash-call pipeline with the `Total Amount Due` column
present, every data row of every emitted output document — merged
sections and single-reinsurer documents alike — has an amount different
from exactly zero: the per-row zero filter runs after the zero-total
skip in both branches. -/
theorem C10 (mergeList : List (List String))
    (renameMap : String → Option String) (rows : List CCRow) (doc : CCDoc)
    (row : CCRow) (hdoc : doc ∈ process_cashcall mergeList renameMap true rows)
    (hrow : row ∈ ccDocRows doc) : row.amount ≠ some 0 := by
  have hmain : ∀ d ∈ process_cashcall mergeList renameMap true rows,
      ∀ r2 ∈ ccDocRows d, r2.amount ≠ some 0 := by
    unfold process_cashcall
    refine foldl_invariant (process_cashcall_step mergeList renameMap true rows)
      (fun acc => ∀ d ∈ acc.2, ∀ r2 ∈ ccDocRows d, r2.amount ≠ some 0)
      (uniqueReinsurers rows) ([], []) ?_ ?_
    · intro acc x _ hP d hd
      unfold process_cashcall_step at hd
      dsimp only at hd
      split at hd
      · exact hP d hd
      · split at hd
        · split at hd
          · split at hd
            · exact hP d hd
            · rcases List.mem_append.mp hd with hold | hnew
              · exact hP d hold
              · have hdeq := List.mem_singleton.mp hnew
                subst hdeq
                intro r2 hr2
                simp only [ccDocRows] at hr2
                rcases List.mem_flatten.mp hr2 with ⟨l2, hl2, hr2l⟩
                rcases List.mem_map.mp hl2 with ⟨sec, hsec, rfl⟩
                exact ccFilterSections_rows hsec r2 hr2l
          · exact hP d hd
        · split at hd
          · split at hd
            · split at hd
              · exact hP d hd
              · rcases List.mem_append.mp hd with hold | hnew
                · exact hP d hold
                · have hdeq := List.mem_singleton.mp hnew
                  subst hdeq
                  intro r2 hr2
                  simp only [ccDocRows] at hr2
                  exact ccFilterRows_amount_ne hr2
            · exact hP d hd
          · rcases List.mem_append.mp hd with hold | hnew
            · exact hP d hold
            · exfalso
              simp_all
    · intro d hd
      simp at hd
  exact hmain doc hdoc row hrow

/-- C10 witness: on a concrete two-row input whose zero row is dropped,
the surviving emitted row has a nonzero amount. -/
theorem C10_witness : (CCRow.mk "R" (some 5)).amount ≠ some 0 :=
  C10 [] (fun _ => none) [CCRow.mk "R" (some 5), CCRow.mk "R" (some 0)]
    (CCDoc.single "R" [CCRow.mk "R" (some 5)]) (CCRow.mk "R" (some 5))
    (by decide) (by decide)

/-- C8 witness: the trimmed, case-folded name " acme re" resolves into
the configured group ["Acme Re"]. -/
theorem C8_witness :
    (find_merge_group " acme re" [["Acme Re"]]).isSome = true :=
  ((C8_amended " acme re" [["Acme Re"]]).1).mpr
    ⟨["Acme Re"], by decide, "Acme Re", by decide, by decide⟩
